import Mathlib

/-!
Verification of the MSP430 disassembler/lifter core.

This file gives a shallow embedding of the instruction decoder
(`src/instructions.py`), the IL lifter (`src/lifter.py`) and the
architecture glue (`src/msp430.py`) of the binaryninja-msp430 plugin,
and proves or refutes the specification claims about them.

Conventions of the embedding:
* a byte buffer is a `List Nat` whose entries are read modulo 256
  (Python `bytes` elements are always in `0..255`);
* machine words are plain `Nat` values below `2^16`, built explicitly
  from two little-endian bytes as the source's `struct.unpack('<H', …)`;
* Python `None` becomes `Option.none`;
* a Python function that can raise an uncaught exception (list index out
  of range, attribute access on `None`) is modelled with an explicit
  `crash` result constructor; returning `None` from `decode` is the
  ordinary failure signal and is modelled by the two non-`ok`,
  non-`crash` constructors, tagged by the return site that produced them
  (`len(data) < 2` and `len(data) < length` give `insufficientBytes`,
  an undefined mnemonic gives `invalidOpcode`).
-/

/-- Mnemonics that can appear in the decoder tables or in the lifter's
dispatch (`lifter.py` has `lift_<name>` methods also for `pop`, `dint`
and `hlt`, which the decoder itself never produces). -/
inductive Mnemonic
  | mov | add | addc | subc | sub | cmp | dadd | bit | bic | bis | xor | and
  | rrc | swpb | rra | sxt | push | call | reti | br
  | jnz | jz | jlo | jhs | jn | jge | jl | jmp
  | ret | pop | dint | hlt
  deriving DecidableEq, Repr, Fintype

/-- Type 1 instructions are those that take two operands. -/
def TYPE1_INSTRUCTIONS : List Mnemonic :=
  [.mov, .add, .addc, .subc, .sub, .cmp, .dadd, .bit, .bic, .bis, .xor, .and]

/-- Type 2 instructions are those that take one operand. -/
def TYPE2_INSTRUCTIONS : List Mnemonic :=
  [.rrc, .swpb, .rra, .sxt, .push, .call, .reti, .br]

/-- Type 3 instructions are (un)conditional branches. -/
def TYPE3_INSTRUCTIONS : List Mnemonic :=
  [.jnz, .jz, .jlo, .jhs, .jn, .jge, .jl, .jmp]

/-- Addressing-mode constants, exactly the integers of `instructions.py`. -/
abbrev REGISTER_MODE : Nat := 0

abbrev INDEXED_MODE : Nat := 1

abbrev INDIRECT_REGISTER_MODE : Nat := 2

abbrev INDIRECT_AUTOINCREMENT_MODE : Nat := 3

abbrev SYMBOLIC_MODE : Nat := 4

abbrev ABSOLUTE_MODE : Nat := 5

abbrev IMMEDIATE_MODE : Nat := 6

abbrev CONSTANT_MODE0 : Nat := 7

abbrev CONSTANT_MODE1 : Nat := 8

abbrev CONSTANT_MODE2 : Nat := 9

abbrev CONSTANT_MODE4 : Nat := 10

abbrev CONSTANT_MODE8 : Nat := 11

abbrev CONSTANT_MODE_NEG1 : Nat := 12

abbrev OFFSET : Nat := 13

/-- Extra-word length contributed by each addressing mode
(`OperandLengths` list of `instructions.py`; list lookup, modes are
always in `0..13`). -/
def OperandLengths (mode : Nat) : Nat :=
  [0, 2, 0, 0, 2, 2, 2, 0, 0, 0, 0, 0, 0, 0].getD mode 0

/-- Registers are the indices into the `Registers` name list:
`pc, sp, sr, cg, r4..r15`. -/
abbrev Register := Fin 16

def pcReg : Register := 0

def spReg : Register := 1

def srReg : Register := 2

def cgReg : Register := 3

/-- A decoded operand (`Operand` class of `instructions.py`). -/
structure Operand where
  mode : Nat
  target : Option Register
  width : Option Nat
  value : Option Int
  operandLength : Nat
  deriving DecidableEq, Repr

/-- Source-operand decoding (`SourceOperand.decode`). `ty` is the
instruction type (1, 2 or 3), `instruction` the first 16-bit word,
`address` the instruction's address. Bit extractions mirror the
source's masks: `(w & 0x40) >> 6` is `w / 64 % 2`, `(w & 0x30) >> 4` is
`w / 16 % 4`, `(w & 0xf00) >> 8` is `w / 256 % 16`, `w & 0xf` is
`w % 16`, `w & 0x3ff` is `w % 1024`. -/
def SourceOperand.decode (ty : Nat) (instruction : Nat) (address : Int) : Operand :=
  let width : Option Nat :=
    if ty = 3 then none else some (if instruction / 64 % 2 = 1 then 1 else 2)
  let rawMode : Nat := if ty = 3 then OFFSET else instruction / 16 % 4
  let target : Option Register :=
    if ty = 2 then some ⟨instruction % 16, by omega⟩
    else if ty = 1 then some ⟨instruction / 256 % 16, by omega⟩
    else none
  let mode : Nat :=
    if target = some pcReg then
      if rawMode = INDEXED_MODE then SYMBOLIC_MODE
      else if rawMode = INDIRECT_AUTOINCREMENT_MODE then IMMEDIATE_MODE
      else rawMode
    else if target = some cgReg then
      if rawMode = REGISTER_MODE then CONSTANT_MODE0
      else if rawMode = INDEXED_MODE then CONSTANT_MODE1
      else if rawMode = INDIRECT_REGISTER_MODE then CONSTANT_MODE2
      else CONSTANT_MODE_NEG1
    else if target = some srReg then
      if rawMode = INDEXED_MODE then ABSOLUTE_MODE
      else if rawMode = INDIRECT_REGISTER_MODE then CONSTANT_MODE4
      else if rawMode = INDIRECT_AUTOINCREMENT_MODE then CONSTANT_MODE8
      else rawMode
    else rawMode
  let operandLength := OperandLengths mode
  if ty = 3 then
    -- branch_target = (instruction & 0x3ff) << 1, then the source's
    -- negative-offset check `branch_target & 0x600`, `|= 0xf800`,
    -- `-= 0x10000`.
    let branchTarget : Nat := instruction % 1024 * 2
    let bt : Int :=
      if branchTarget &&& 0x600 ≠ 0 then ((branchTarget ||| 0xf800 : Nat) : Int) - 0x10000
      else (branchTarget : Int)
    { mode := mode, target := target, width := width,
      value := some (address + 2 + bt), operandLength := operandLength }
  else
    { mode := mode, target := target, width := width,
      value := none, operandLength := operandLength }

/-- Destination-operand decoding (`DestOperand.decode`); `None` unless
type 1. Mode bit is `(w & 0x80) >> 7`, register is `w & 0xf`. -/
def DestOperand.decode (ty : Nat) (instruction : Nat) : Option Operand :=
  if ty ≠ 1 then none
  else
    let width : Nat := if instruction / 64 % 2 = 1 then 1 else 2
    let target : Register := ⟨instruction % 16, by omega⟩
    let rawMode : Nat := instruction / 128 % 2
    let mode : Nat :=
      if target = srReg ∧ rawMode = INDEXED_MODE then ABSOLUTE_MODE else rawMode
    some { mode := mode, target := some target, width := some width,
           value := none, operandLength := OperandLengths mode }

/-- A decoded instruction (`Instruction` class). The `ret` produced by
the `0x4130` shortcut keeps the constructor defaults: no type, no
operands, length 2. -/
structure Instruction where
  mnemonic : Mnemonic
  type : Option Nat
  src : Option Operand
  dst : Option Operand
  length : Nat
  emulated : Bool
  deriving DecidableEq, Repr

/-- Result of the `InstructionNames[opcode][...]` lookup: a mnemonic, a
`None` entry (opcode 0), or an uncaught `IndexError` (opcode 0x1 with
sub-field 7 indexes past the 7-entry type-2 list). -/
inductive NameResult
  | found (m : Mnemonic)
  | invalid
  | indexError
  deriving DecidableEq, Repr

/-- Mnemonic lookup from the first instruction word, mirroring
`InstructionNames`, `InstructionMask` and `InstructionMaskShift`:
opcode is `(w & 0xf000) >> 12`; opcode 1 uses sub-field
`(w & 0x380) >> 7` (i.e. `w / 128 % 8`, three bits, but the list has
only 7 entries); opcodes 2 and 3 use `(w & 0xc00) >> 10`. -/
def lookupName (w : Nat) : NameResult :=
  match w / 4096 % 16 with
  | 0 => .invalid
  | 1 =>
    match [Mnemonic.rrc, .swpb, .rra, .sxt, .push, .call, .reti].get? (w / 128 % 8) with
    | some m => .found m
    | none => .indexError
  | 2 =>
    match [Mnemonic.jnz, .jz, .jlo, .jhs].get? (w / 1024 % 4) with
    | some m => .found m
    | none => .indexError
  | 3 =>
    match [Mnemonic.jn, .jge, .jl, .jmp].get? (w / 1024 % 4) with
    | some m => .found m
    | none => .indexError
  | 4 => .found .mov
  | 5 => .found .add
  | 6 => .found .addc
  | 7 => .found .subc
  | 8 => .found .sub
  | 9 => .found .cmp
  | 10 => .found .dadd
  | 11 => .found .bit
  | 12 => .found .bic
  | 13 => .found .bis
  | 14 => .found .xor
  | 15 => .found .and
  | _ => .invalid

/-- Instruction type from the mnemonic (membership in the three lists;
Python would leave `type_` unbound — an error — for a mnemonic in none
of them, which is modelled as `none`). -/
def typeOf (m : Mnemonic) : Option Nat :=
  if m ∈ TYPE1_INSTRUCTIONS then some 1
  else if m ∈ TYPE2_INSTRUCTIONS then some 2
  else if m ∈ TYPE3_INSTRUCTIONS then some 3
  else none

/-- Byte access into the buffer; entries are reduced mod 256 because the
source operates on Python `bytes`. -/
def getByte (data : List Nat) (i : Nat) : Nat := data.getD i 0 % 256

/-- Little-endian 16-bit word at byte offset `i` (`struct.unpack('<H', …)`). -/
def wordAt (data : List Nat) (i : Nat) : Nat := getByte data i + 256 * getByte data (i + 1)

/-- Result of `Instruction.decode`: a decoded instruction, one of the
two ordinary `None` failure signals, or an uncaught exception. -/
inductive DecodeResult
  | ok (i : Instruction)
  | insufficientBytes
  | invalidOpcode
  | crash
  deriving DecidableEq, Repr

/-- Encoded length computed by `Instruction.decode`:
`2 + src.operand_length + (dst.operand_length if dst else 0)`. -/
def instrLength (instruction : Nat) (address : Int) (ty : Nat) : Nat :=
  2 + (SourceOperand.decode ty instruction address).operandLength +
    (match DestOperand.decode ty instruction with
     | some d => d.operandLength
     | none => 0)

/-- The source operand after the extra-word read: `decode` overwrites
`src.value` with the word at offset 2 when the operand needs one. -/
def srcFinal (data : List Nat) (address : Int) (instruction : Nat) (ty : Nat) : Operand :=
  let src := SourceOperand.decode ty instruction address
  if src.operandLength ≠ 0 then
    { src with value := some ((wordAt data 2 : Nat) : Int) }
  else src

/-- The destination operand after the extra-word read: its word sits at
offset `2 + src.operand_length`, the source's running `offset`. -/
def dstFinal (data : List Nat) (address : Int) (instruction : Nat) (ty : Nat) : Option Operand :=
  let ofs := 2 + (SourceOperand.decode ty instruction address).operandLength
  match DestOperand.decode ty instruction with
  | some d =>
    if d.operandLength ≠ 0 then
      some { d with value := some ((wordAt data ofs : Nat) : Int) }
    else some d
  | none => none

/-- The instruction `Instruction.decode` builds once the length check
has passed. The `mov`-to-`pc` fixup rewrites the mnemonic to `br` and
sets `emulated` (`dst` is present whenever the mnemonic is `mov`). -/
def decodedInstruction (data : List Nat) (address : Int) (instruction : Nat)
    (m : Mnemonic) (ty : Nat) : Instruction :=
  let dst' := dstFinal data address instruction ty
  let isBr : Bool := decide (m = Mnemonic.mov) && (match dst' with
    | some d => decide (d.target = some pcReg)
    | none => false)
  { mnemonic := if isBr then .br else m,
    type := some ty,
    src := some (srcFinal data address instruction ty),
    dst := dst',
    length := instrLength instruction address ty,
    emulated := isBr }

/-- Operand/length/extra-word part of `Instruction.decode`, after the
mnemonic has been determined. -/
def decodeOperands (data : List Nat) (address : Int) (instruction : Nat)
    (m : Mnemonic) (ty : Nat) : DecodeResult :=
  if data.length < instrLength instruction address ty then .insufficientBytes
  else .ok (decodedInstruction data address instruction m ty)

/-- `Instruction.decode` of `instructions.py`; `wordAt data 0` is the
first little-endian instruction word. -/
def decode (data : List Nat) (address : Int) : DecodeResult :=
  if data.length < 2 then .insufficientBytes
  else if wordAt data 0 = 0x4130 then
    .ok { mnemonic := .ret, type := none, src := none, dst := none,
          length := 2, emulated := true }
  else
    match lookupName (wordAt data 0) with
    | .invalid => .invalidOpcode
    | .indexError => .crash
    | .found m =>
      match typeOf m with
      | none => .crash
      | some ty => decodeOperands data address (wordAt data 0) m ty

/-!
IL lifter embedding (`src/lifter.py`). IL expressions and operations
are inert syntax trees; an appended expression/operation of the Binary
Ninja API becomes a constructor application. Width arguments are kept
exactly as the source passes them (`Option Nat`, since a decoded jump
operand has `width = None`), and flag-write specifiers are the literal
strings the source passes (`None` when the source omits the argument).
The emitter's label lookup `il.get_label_for_address` is abstracted as
an oracle `labelFor : Int → Bool` saying whether an address already has
a label in the current function scope.
-/

/-- Flag conditions of `LowLevelILFlagCondition` used by the lifters. -/
inductive FlagCond
  | UGE | UGT | ULT | ULE | SGE | SLT | E | NE
  deriving DecidableEq, Repr

/-- A register name as passed to the IL builders: a real register, an
`LLIL_TEMP` temporary, or Python `None` (never passed by reachable
paths). -/
inductive RegName
  | gp (r : Register)
  | temp (n : Nat)
  | noneReg
  deriving DecidableEq, Repr

/-- View of an operand's (optional) target as a builder register name. -/
def regOf : Option Register → RegName
  | some r => .gp r
  | none => .noneReg

/-- An IL label argument: an already-known label for an address, or a
fresh `LowLevelILLabel` (recorded with the address it stands for). -/
inductive LabelRef
  | known (a : Int)
  | fresh (a : Int)
  deriving DecidableEq, Repr

/-- IL expressions built by the lifter. -/
inductive ILExpr
  | reg (w : Option Nat) (r : RegName)
  | const (w : Option Nat) (v : Option Int)
  | constPtr (w : Option Nat) (v : Option Int)
  | load (w : Option Nat) (a : ILExpr)
  | add (w : Option Nat) (a b : ILExpr) (flags : Option String)
  | sub (w : Option Nat) (a b : ILExpr) (flags : Option String)
  | and_ (w : Option Nat) (a b : ILExpr) (flags : Option String)
  | or_ (w : Option Nat) (a b : ILExpr) (flags : Option String)
  | xor_ (w : Option Nat) (a b : ILExpr) (flags : Option String)
  | not_ (w : Option Nat) (a : ILExpr)
  | arithShiftRight (w : Option Nat) (a b : ILExpr) (flags : Option String)
  | rotateRightCarry (w : Option Nat) (a b c : ILExpr) (flags : Option String)
  | rotateLeft (w : Option Nat) (a b : ILExpr)
  | signExtend (w : Option Nat) (a : ILExpr) (flags : Option String)
  | flag (f : String)
  | flagCond (c : FlagCond)
  | compareEqual (w : Option Nat) (a b : ILExpr)
  | pop (w : Option Nat)
  | indexError
  deriving DecidableEq, Repr

/-- IL operations appended to the emission context. -/
inductive ILOp
  | setReg (w : Option Nat) (r : RegName) (e : ILExpr)
  | setFlag (f : String) (e : ILExpr)
  | store (w : Option Nat) (a : ILExpr) (e : ILExpr)
  | push (w : Option Nat) (e : ILExpr)
  | call (e : ILExpr)
  | ret (e : ILExpr)
  | jump (e : ILExpr)
  | goto (a : Int)
  | ifExpr (cond : ILExpr) (t f : LabelRef)
  | markLabel (l : LabelRef)
  | noRet
  | unimplemented
  | expr (e : ILExpr)
  deriving DecidableEq, Repr

/-- The `SourceOperandsIL` table: IL expression for reading an operand,
indexed by addressing mode (13 entries, `OFFSET` would raise). -/
def SourceOperandsIL (mode : Nat) (w : Option Nat) (reg : Option Register)
    (value : Option Int) : ILExpr :=
  match mode with
  | 0 => .reg w (regOf reg)
  | 1 => .load w (.add (some 2) (.reg (some 2) (regOf reg)) (.const (some 2) value) none)
  | 2 => .load w (.reg (some 2) (regOf reg))
  | 3 => .load w (.reg (some 2) (regOf reg))
  | 4 => .load w (.add (some 2) (.reg (some 2) (.gp pcReg)) (.const (some 2) value) none)
  | 5 => .load w (.constPtr (some 2) value)
  | 6 => .const w value
  | 7 => .const w (some 0)
  | 8 => .const w (some 1)
  | 9 => .const w (some 2)
  | 10 => .const w (some 4)
  | 11 => .const w (some 8)
  | 12 => .const w (some (-1))
  | _ => .indexError

/-- The `DestOperandsIL` table: IL operation writing `src` to an
operand, indexed by addressing mode (7 entries; modes 2, 3 and 4 emit
`il.unimplemented()`). -/
def DestOperandsIL (mode : Nat) (w : Option Nat) (reg : Option Register)
    (value : Option Int) (src : ILExpr) : ILOp :=
  match mode with
  | 0 => .setReg (some 2) (regOf reg) src
  | 1 => .store w (.add (some 2) (.reg (some 2) (regOf reg)) (.const (some 2) value) none) src
  | 2 => .unimplemented
  | 3 => .unimplemented
  | 4 => .unimplemented
  | 5 => .store w (.constPtr (some 2) value) src
  | 6 => .store w (.constPtr (some 2) value) src
  | _ => .unimplemented

/-- Constant held by an IL expression (`LowLevelILInstruction.constant`;
only ever taken from `il.const` expressions by the source). -/
def destConstant : ILExpr → Option Int
  | .const _ v => v
  | _ => none

/-- The module-level `cond_branch` helper: append an `if` on `cond`;
when the true target has no label in scope, mark a fresh label and
append an indirect jump to the destination; when the fall-through
address has no label, mark a fresh one. -/
def cond_branch (labelFor : Int → Bool) (addr : Int) (cond : ILExpr)
    (dest : ILExpr) : List ILOp :=
  let dc : Int := (destConstant dest).getD 0
  let tFound := labelFor dc
  let fFound := labelFor (addr + 2)
  let t : LabelRef := if tFound then .known dc else .fresh dc
  let f : LabelRef := if fFound then .known (addr + 2) else .fresh (addr + 2)
  [.ifExpr cond t f]
    ++ (if tFound then [] else [.markLabel t, .jump dest])
    ++ (if fFound then [] else [.markLabel f])

/-- The module-level `jump` helper: a `goto` when the destination is a
constant with a known label, otherwise an indirect jump. -/
def jumpIL (labelFor : Int → Bool) (dest : ILExpr) : ILOp :=
  match destConstant dest with
  | some v => if labelFor v then .goto v else .jump dest
  | none => .jump dest

namespace Lifter

/-- Default used to read an operand the source accesses without a
`None` check; decoded instructions reaching those lifters always carry
the operand (Python would raise `AttributeError` otherwise). -/
def noOperand : Operand :=
  { mode := 0, target := none, width := none, value := none, operandLength := 0 }

/-- The instruction's source operand as the lifters access it. -/
def srcOp (i : Instruction) : Operand := i.src.getD noOperand

/-- The instruction's destination operand as the lifters access it. -/
def dstOp (i : Instruction) : Operand := i.dst.getD noOperand

/-- `Lifter.lift_type1`: operand-reading part of a two-operand
operation. -/
def lift_type1 (op : Option Nat → ILExpr → ILExpr → Option String → ILExpr)
    (src dst : Operand) (flags : Option String) : ILExpr :=
  op src.width (SourceOperandsIL src.mode src.width src.target src.value)
    (SourceOperandsIL dst.mode dst.width dst.target dst.value) flags

/-- The single IL operation `Lifter.autoincrement` appends when the
source mode is indirect-autoincrement. -/
def autoincOp (src : Operand) : ILOp :=
  .setReg (some 2) (regOf src.target)
    (.add src.width (.reg (some 2) (regOf src.target))
      (.const (some 2) (src.width.map (fun n => (n : Int)))) none)

/-- `Lifter.autoincrement`: appended after the primary effect by most
lifters. -/
def autoincrement (src : Operand) : List ILOp :=
  if src.mode = INDIRECT_AUTOINCREMENT_MODE then [autoincOp src] else []

def lift_add (i : Instruction) : List ILOp :=
  let s := srcOp i; let d := dstOp i
  [DestOperandsIL d.mode d.width d.target d.value (lift_type1 .add s d (some "*"))]
    ++ autoincrement s

def lift_addc (i : Instruction) : List ILOp :=
  let s := srcOp i; let d := dstOp i
  let add := lift_type1 .add s d (some "*")
  [DestOperandsIL d.mode d.width d.target d.value
      (.add s.width add (.flag "c") (some "*"))]
    ++ autoincrement s

def lift_and (i : Instruction) : List ILOp :=
  let s := srcOp i; let d := dstOp i
  [DestOperandsIL d.mode d.width d.target d.value (lift_type1 .and_ s d none)]
    ++ autoincrement s

def lift_bic (i : Instruction) : List ILOp :=
  let s := srcOp i; let d := dstOp i
  let left := SourceOperandsIL d.mode d.width d.target d.value
  let right := .not_ (some 2) (SourceOperandsIL s.mode s.width s.target s.value)
  [DestOperandsIL d.mode d.width d.target d.value (.and_ s.width left right none)]
    ++ autoincrement s

def lift_bis (i : Instruction) : List ILOp :=
  let s := srcOp i; let d := dstOp i
  [DestOperandsIL d.mode d.width d.target d.value (lift_type1 .or_ s d none)]
    ++ autoincrement s

def lift_bit (i : Instruction) : List ILOp :=
  let s := srcOp i; let d := dstOp i
  [DestOperandsIL d.mode d.width d.target d.value (lift_type1 .and_ s d none)]
    ++ autoincrement s

def lift_br (labelFor : Int → Bool) (i : Instruction) : List ILOp :=
  let s := srcOp i
  [jumpIL labelFor (SourceOperandsIL s.mode s.width s.target s.value)]
    ++ autoincrement s

/-- `Lifter.lift_call`: for an autoincrement source the register is
copied to `LLIL_TEMP(0)` first, the increment (always by constant 2) is
appended, and the call reads through the temporary; the call expression
is appended last. -/
def lift_call (i : Instruction) : List ILOp :=
  let s := srcOp i
  if s.mode = INDIRECT_AUTOINCREMENT_MODE then
    [.setReg (some 2) (.temp 0) (.reg (some 2) (regOf s.target)),
     .setReg (some 2) (regOf s.target)
       (.add (some 2) (.reg (some 2) (regOf s.target)) (.const (some 2) (some 2)) none),
     .call (.load (some 2) (.reg (some 2) (.temp 0)))]
  else if s.mode = IMMEDIATE_MODE then
    [.call (.constPtr (some 2) s.value)]
  else
    [.call (SourceOperandsIL s.mode (some 2) s.target s.value)]

def lift_cmp (i : Instruction) : List ILOp :=
  let s := srcOp i; let d := dstOp i
  [.expr (lift_type1 .sub s d (some "*"))] ++ autoincrement s

def lift_dadd (_ : Instruction) : List ILOp := [.unimplemented]

def lift_dint (_ : Instruction) : List ILOp := []

def lift_hlt (_ : Instruction) : List ILOp := [.noRet]

def lift_jge (labelFor : Int → Bool) (addr : Int) (i : Instruction) : List ILOp :=
  cond_branch labelFor addr (.flagCond .SGE) (.const (some 2) (srcOp i).value)

def lift_jhs (labelFor : Int → Bool) (addr : Int) (i : Instruction) : List ILOp :=
  cond_branch labelFor addr (.flagCond .ULE) (.const (some 2) (srcOp i).value)

def lift_jl (labelFor : Int → Bool) (addr : Int) (i : Instruction) : List ILOp :=
  cond_branch labelFor addr (.flagCond .SLT) (.const (some 2) (srcOp i).value)

def lift_jlo (labelFor : Int → Bool) (addr : Int) (i : Instruction) : List ILOp :=
  cond_branch labelFor addr (.flagCond .UGT) (.const (some 2) (srcOp i).value)

def lift_jmp (labelFor : Int → Bool) (i : Instruction) : List ILOp :=
  [jumpIL labelFor (.const (some 2) (srcOp i).value)]

def lift_jn (labelFor : Int → Bool) (addr : Int) (i : Instruction) : List ILOp :=
  cond_branch labelFor addr
    (.compareEqual (some 0) (.flag "n") (.const (some 0) (some 1)))
    (.const (some 2) (srcOp i).value)

def lift_jnz (labelFor : Int → Bool) (addr : Int) (i : Instruction) : List ILOp :=
  cond_branch labelFor addr (.flagCond .NE) (.const (some 2) (srcOp i).value)

def lift_jz (labelFor : Int → Bool) (addr : Int) (i : Instruction) : List ILOp :=
  cond_branch labelFor addr (.flagCond .E) (.const (some 2) (srcOp i).value)

/-- `Lifter.lift_mov`: refuses to lift (emits nothing) when the source
is an immediate and the destination is the stack pointer in register
mode. -/
def lift_mov (i : Instruction) : List ILOp :=
  let s := srcOp i; let d := dstOp i
  if s.mode = IMMEDIATE_MODE ∧ d.target = some spReg ∧ d.mode = REGISTER_MODE then []
  else
    [DestOperandsIL d.mode d.width d.target d.value
        (SourceOperandsIL s.mode s.width s.target s.value)]
      ++ autoincrement s

def lift_pop (i : Instruction) : List ILOp :=
  let s := srcOp i
  [DestOperandsIL s.mode s.width s.target s.value (.pop (some 2))] ++ autoincrement s

def lift_push (i : Instruction) : List ILOp :=
  let s := srcOp i
  [.push (some 2) (SourceOperandsIL s.mode s.width s.target s.value)] ++ autoincrement s

def lift_ret (_ : Instruction) : List ILOp := [.ret (.pop (some 2))]

def lift_reti (_ : Instruction) : List ILOp :=
  [.setReg (some 2) (.gp srReg) (.pop (some 2)), .ret (.pop (some 2))]

def lift_rra (i : Instruction) : List ILOp :=
  let s := srcOp i
  [DestOperandsIL s.mode s.width s.target s.value
      (.arithShiftRight (some 2) (SourceOperandsIL s.mode s.width s.target s.value)
        (.const (some 1) (some 1)) (some "cnz")),
   .setFlag "v" (.const (some 0) (some 0))]
    ++ autoincrement s

def lift_rrc (i : Instruction) : List ILOp :=
  let s := srcOp i
  [DestOperandsIL s.mode s.width s.target s.value
      (.rotateRightCarry (some 2) (SourceOperandsIL s.mode s.width s.target s.value)
        (.const (some 1) (some 1)) (.flag "c") (some "*"))]
    ++ autoincrement s

/-- `Lifter.lift_sub` passes `dst` and `src` to `lift_type1` in swapped
order (subtraction is dst − src). -/
def lift_sub (i : Instruction) : List ILOp :=
  let s := srcOp i; let d := dstOp i
  [DestOperandsIL d.mode d.width d.target d.value (lift_type1 .sub d s (some "*"))]
    ++ autoincrement s

def lift_subc (i : Instruction) : List ILOp :=
  let s := srcOp i; let d := dstOp i
  let sub := lift_type1 .sub s d (some "*")
  [DestOperandsIL d.mode d.width d.target d.value
      (.sub s.width sub (.not_ s.width (.flag "c")) (some "*"))]
    ++ autoincrement s

def lift_swpb (i : Instruction) : List ILOp :=
  let s := srcOp i
  [DestOperandsIL s.mode (some 2) s.target s.value
      (.rotateLeft (some 2) (SourceOperandsIL s.mode (some 2) s.target s.value)
        (.const (some 1) (some 8)))]
    ++ autoincrement s

def lift_sxt (i : Instruction) : List ILOp :=
  let s := srcOp i
  [DestOperandsIL s.mode (some 2) s.target s.value
      (.signExtend (some 2) (SourceOperandsIL s.mode (some 1) s.target s.value) (some "*"))]
    ++ autoincrement s

def lift_xor (i : Instruction) : List ILOp :=
  let s := srcOp i; let d := dstOp i
  [DestOperandsIL d.mode d.width d.target d.value (lift_type1 .xor_ s d (some "*"))]
    ++ autoincrement s

/-- `Lifter.lift`: dispatch on the mnemonic (the Python class has a
`lift_<name>` method for every mnemonic of the enumeration, so the
`il.unimplemented()` fallback of the dispatcher is unreachable). -/
def lift (labelFor : Int → Bool) (addr : Int) (i : Instruction) : List ILOp :=
  match i.mnemonic with
  | .mov => lift_mov i
  | .add => lift_add i
  | .addc => lift_addc i
  | .subc => lift_subc i
  | .sub => lift_sub i
  | .cmp => lift_cmp i
  | .dadd => lift_dadd i
  | .bit => lift_bit i
  | .bic => lift_bic i
  | .bis => lift_bis i
  | .xor => lift_xor i
  | .and => lift_and i
  | .rrc => lift_rrc i
  | .swpb => lift_swpb i
  | .rra => lift_rra i
  | .sxt => lift_sxt i
  | .push => lift_push i
  | .call => lift_call i
  | .reti => lift_reti i
  | .br => lift_br labelFor i
  | .jnz => lift_jnz labelFor addr i
  | .jz => lift_jz labelFor addr i
  | .jlo => lift_jlo labelFor addr i
  | .jhs => lift_jhs labelFor addr i
  | .jn => lift_jn labelFor addr i
  | .jge => lift_jge labelFor addr i
  | .jl => lift_jl labelFor addr i
  | .jmp => lift_jmp labelFor i
  | .ret => lift_ret i
  | .pop => lift_pop i
  | .dint => lift_dint i
  | .hlt => lift_hlt i

end Lifter

/-- Flag condition the `InstructionIL` table of `src/__init__.py` uses
for `jhs` (`LLFC_UGE`). -/
def InstructionIL_jhs : FlagCond := .UGE

/-- Flag condition the `InstructionIL` table of `src/__init__.py` uses
for `jlo` (`LLFC_ULT`). -/
def InstructionIL_jlo : FlagCond := .ULT

/-- Result of `MSP430.perform_get_instruction_low_level_il`. -/
inductive LiftResult
  | ok (ops : List ILOp) (len : Nat)
  | failed
  | crash
  deriving DecidableEq, Repr

/-- `MSP430.perform_get_instruction_low_level_il` (`src/msp430.py`):
decode, then the `dint`-to-`hlt` peephole (which peeks at the next
instruction; if that inner decode returned `None`, the attribute access
`next_instr.mnemonic` would raise), then `Lifter.lift`. -/
def performGetInstructionLowLevelIl (labelFor : Int → Bool) (data : List Nat)
    (addr : Int) : LiftResult :=
  match decode data addr with
  | .insufficientBytes => .failed
  | .invalidOpcode => .failed
  | .crash => .crash
  | .ok instr =>
    if instr.mnemonic = Mnemonic.dint then
      match decode (data.drop instr.length) (addr + instr.length) with
      | .ok next =>
        let instr' := if next.mnemonic = Mnemonic.jmp ∧ (Lifter.srcOp next).value = some addr
          then { instr with mnemonic := .hlt } else instr
        .ok (Lifter.lift labelFor addr instr') instr.length
      | _ => .crash
    else
      .ok (Lifter.lift labelFor addr instr) instr.length

/-!
Claim theorems. Concrete instruction words used below:
`0x3D00` = `jmp` with 10-bit offset field `0x100` (bit 8 set, bit 9
clear); `0x1380` = opcode 1 with sub-field 7 (no table entry);
`0x2C00`/`0x2800` = `jhs`/`jlo` with offset 0; `0xC232` = `bic #8, sr`
(the hardware encoding of `dint`) and `0x3FFE` = `jmp` to two bytes
back; `0x4031` = `mov @pc+, sp`; `0x5435` = `add @r4+, r5`.
-/

/-- C1: the spec says a type-3 branch offset is sign-extended exactly
when bit 9 of the unshifted 10-bit field is set. The code instead
tests `(field << 1) & 0x600`, which also fires on bit 8: for field
`0x100` (word `0x3D00`, bytes `[0x00, 0x3D]`) at address 1000 the
decoder produces the target `-534`, while the claimed rule gives
`1000 + 2 + 0x200 = 1514`. -/
theorem C1_branch_offset_bug :
    decode [0x00, 0x3D] 1000 =
      .ok { mnemonic := .jmp, type := some 3,
            src := some { mode := OFFSET, target := none, width := none,
                          value := some (-534), operandLength := 0 },
            dst := none, length := 2, emulated := false } ∧
    (-534 : Int) ≠ 1000 + 2 + 512 := by decide

/-- C2: the claim says an unknown opcode/sub-field combination yields
the ordinary invalid-opcode failure signal and decode never terminates
abnormally. For word `0x1380` (opcode 1, sub-field 7) the lookup
`InstructionNames[1][7]` indexes past the 7-entry list and raises an
uncaught `IndexError` instead. -/
theorem C2_decode_crash_on_0x1380 :
    decode [0x80, 0x13] 0 = .crash ∧ decode [0x80, 0x13] 0 ≠ .invalidOpcode := by decide

/-- C3: the claim says `jhs` lifts with an unsigned-greater-or-equal
predicate and `jlo` with unsigned-less-than. `Lifter.lift_jhs` in
`lifter.py` actually emits `LLFC_ULE` and `Lifter.lift_jlo` emits
`LLFC_UGT`, while the `InstructionIL` table of `__init__.py` uses
`LLFC_UGE`/`LLFC_ULT` — the architecturally correct pair the claim
asserts. -/
theorem C3_jhs_jlo_conditions :
    decode [0x00, 0x2C] 0 =
      .ok { mnemonic := .jhs, type := some 3,
            src := some { mode := OFFSET, target := none, width := none,
                          value := some 2, operandLength := 0 },
            dst := none, length := 2, emulated := false } ∧
    Lifter.lift (fun _ => false) 0
      { mnemonic := .jhs, type := some 3,
        src := some { mode := OFFSET, target := none, width := none,
                      value := some 2, operandLength := 0 },
        dst := none, length := 2, emulated := false } =
      [.ifExpr (.flagCond .ULE) (.fresh 2) (.fresh 2),
       .markLabel (.fresh 2), .jump (.const (some 2) (some 2)),
       .markLabel (.fresh 2)] ∧
    decode [0x00, 0x28] 0 =
      .ok { mnemonic := .jlo, type := some 3,
            src := some { mode := OFFSET, target := none, width := none,
                          value := some 2, operandLength := 0 },
            dst := none, length := 2, emulated := false } ∧
    Lifter.lift (fun _ => false) 0
      { mnemonic := .jlo, type := some 3,
        src := some { mode := OFFSET, target := none, width := none,
                      value := some 2, operandLength := 0 },
        dst := none, length := 2, emulated := false } =
      [.ifExpr (.flagCond .UGT) (.fresh 2) (.fresh 2),
       .markLabel (.fresh 2), .jump (.const (some 2) (some 2)),
       .markLabel (.fresh 2)] ∧
    FlagCond.ULE ≠ InstructionIL_jhs ∧ FlagCond.UGT ≠ InstructionIL_jlo ∧
    InstructionIL_jhs = .UGE ∧ InstructionIL_jlo = .ULT := by decide

/-- C4: the claim says a disable-interrupts instruction followed by a
jump to its own address lifts as a single no-return halt. The buffer
`[0x32, 0xC2, 0xFE, 0x3F]` at address 0 is exactly that idiom
(`bic #8, sr`, the hardware encoding of `dint`, then `jmp` back to
address 0), yet the lifter emits the ordinary `bic` IL — the decoder
spells the first instruction `bic`, never `dint`, so the peephole's
guard can never fire. -/
theorem C4_dint_halt_fusion_dead :
    performGetInstructionLowLevelIl (fun _ => false) [0x32, 0xC2, 0xFE, 0x3F] 0 =
      .ok [.setReg (some 2) (.gp srReg)
            (.and_ (some 2) (.reg (some 2) (.gp srReg))
              (.not_ (some 2) (.const (some 2) (some 8))) none)] 2 ∧
    [ILOp.setReg (some 2) (.gp srReg)
        (.and_ (some 2) (.reg (some 2) (.gp srReg))
          (.not_ (some 2) (.const (some 2) (some 8))) none)] ≠ [ILOp.noRet] ∧
    (match decode [0x32, 0xC2, 0xFE, 0x3F] 0 with
     | .ok i => i.mnemonic
     | _ => .hlt) = .bic := by decide

/-- C5 counterexample: the claim says word `0x4031` decodes with a
constant-generator-2 source and total length 2. Its source register
field (bits 11–8) is 0 = `pc` with raw mode 3, so the decoder resolves
immediate mode: two extra source bytes and total length 4. -/
theorem C5_counterexample :
    decode [0x31, 0x40, 0x00, 0x00] 0 =
      .ok { mnemonic := .mov, type := some 1,
            src := some { mode := IMMEDIATE_MODE, target := some pcReg, width := some 2,
                          value := some 0, operandLength := 2 },
            dst := some { mode := REGISTER_MODE, target := some spReg, width := some 2,
                          value := none, operandLength := 0 },
            length := 4, emulated := false } ∧
    IMMEDIATE_MODE ≠ CONSTANT_MODE2 ∧ (4 : Nat) ≠ 2 := by decide

/-- C5 amended: decoding word `0x4031` (at any address, with two
trailing bytes) yields `mov` with an immediate-mode source that
consumes two extra operand bytes (here the immediate `0x1234`),
destination `sp` in register mode, and total encoded length 4. -/
theorem C5_amended_immediate_mov_to_sp :
    ∀ address : Int,
      decode [0x31, 0x40, 0x34, 0x12] address =
        .ok { mnemonic := .mov, type := some 1,
              src := some { mode := IMMEDIATE_MODE, target := some pcReg, width := some 2,
                            value := some 4660, operandLength := 2 },
              dst := some { mode := REGISTER_MODE, target := some spReg, width := some 2,
                            value := none, operandLength := 0 },
              length := 4, emulated := false } := by
  intro address
  rfl

/-!
Structural lemmas about `decode`, shared by the universal claims:
every addressing mode contributes 0 or 2 extra bytes, the extra-word
reads stay inside the declared length, and `decode` reads nothing of
the buffer beyond that length.
-/

theorem OperandLengths_cases (mode : Nat) :
    OperandLengths mode = 0 ∨ OperandLengths mode = 2 := by
  unfold OperandLengths
  rcases Nat.lt_or_ge mode 14 with h | h
  · interval_cases mode <;> simp
  · left
    rw [List.getD_eq_default]
    simpa using h

theorem src_operandLength_cases (ty instruction : Nat) (address : Int) :
    (SourceOperand.decode ty instruction address).operandLength = 0 ∨
      (SourceOperand.decode ty instruction address).operandLength = 2 := by
  unfold SourceOperand.decode
  split
  · exact OperandLengths_cases _
  · exact OperandLengths_cases _

theorem dst_operandLength_cases (ty instruction : Nat) (d : Operand)
    (h : DestOperand.decode ty instruction = some d) :
    d.operandLength = 0 ∨ d.operandLength = 2 := by
  unfold DestOperand.decode at h
  split at h
  · exact absurd h (by simp)
  · injection h with h
    subst h
    exact OperandLengths_cases _

theorem instrLength_cases (instruction : Nat) (address : Int) (ty : Nat) :
    instrLength instruction address ty = 2 ∨ instrLength instruction address ty = 4 ∨
      instrLength instruction address ty = 6 := by
  unfold instrLength
  rcases src_operandLength_cases ty instruction address with h | h <;> rw [h] <;>
  · cases hd : DestOperand.decode ty instruction with
    | none => simp
    | some d => rcases dst_operandLength_cases ty instruction d hd with h2 | h2 <;> simp [h2]

theorem srcFinal_operandLength (data : List Nat) (address : Int) (instruction ty : Nat) :
    (srcFinal data address instruction ty).operandLength =
      (SourceOperand.decode ty instruction address).operandLength := by
  unfold srcFinal
  dsimp only
  split <;> rfl

theorem srcFinal_mode (data : List Nat) (address : Int) (instruction ty : Nat) :
    (srcFinal data address instruction ty).mode =
      (SourceOperand.decode ty instruction address).mode := by
  unfold srcFinal
  dsimp only
  split <;> rfl

theorem dstFinal_operandLength (data : List Nat) (address : Int) (instruction ty : Nat) :
    (match dstFinal data address instruction ty with
     | some d => d.operandLength
     | none => 0) =
      (match DestOperand.decode ty instruction with
       | some d => d.operandLength
       | none => 0) := by
  unfold dstFinal
  cases hd : DestOperand.decode ty instruction with
  | none => rfl
  | some d =>
    by_cases hne : d.operandLength = 0
    · simp [hne]
    · simp [hne]

/-- Anatomy of a successful decode: the buffer has at least two bytes
and the result is either the `0x4130` shortcut or the operand-decoding
payload for a mnemonic found in the tables. -/
theorem decode_ok_cases (data : List Nat) (address : Int) (i : Instruction)
    (h : decode data address = .ok i) :
    2 ≤ data.length ∧
    ((wordAt data 0 = 0x4130 ∧
       i = { mnemonic := .ret, type := none, src := none, dst := none,
             length := 2, emulated := true }) ∨
     (wordAt data 0 ≠ 0x4130 ∧ ∃ m ty, lookupName (wordAt data 0) = .found m ∧
       typeOf m = some ty ∧ ¬ data.length < instrLength (wordAt data 0) address ty ∧
       i = decodedInstruction data address (wordAt data 0) m ty)) := by
  unfold decode at h
  by_cases h2 : data.length < 2
  · rw [if_pos h2] at h
    exact absurd h (by simp)
  · rw [if_neg h2] at h
    refine ⟨by omega, ?_⟩
    by_cases h41 : wordAt data 0 = 0x4130
    · rw [if_pos h41] at h
      injection h with h
      exact Or.inl ⟨h41, h.symm⟩
    · rw [if_neg h41] at h
      refine Or.inr ⟨h41, ?_⟩
      cases hl : lookupName (wordAt data 0) with
      | invalid => rw [hl] at h; exact absurd h (by simp)
      | indexError => rw [hl] at h; exact absurd h (by simp)
      | found m =>
        rw [hl] at h
        dsimp only at h
        cases hty : typeOf m with
        | none => rw [hty] at h; exact absurd h (by simp)
        | some ty =>
          rw [hty] at h
          dsimp only at h
          unfold decodeOperands at h
          by_cases hlen : data.length < instrLength (wordAt data 0) address ty
          · rw [if_pos hlen] at h
            exact absurd h (by simp)
          · rw [if_neg hlen] at h
            injection h with h
            exact ⟨m, ty, rfl, hty, hlen, h.symm⟩

theorem getByte_agree {data data' : List Nat} {n : Nat}
    (hagree : data.take n = data'.take n) {j : Nat} (hj : j < n) :
    getByte data j = getByte data' j := by
  have h : data.getD j 0 = data'.getD j 0 := by
    have h := congrArg (fun l => List.getD l j 0) hagree
    simpa [List.getD_eq_getElem?_getD, List.getElem?_take, hj] using h
  unfold getByte
  rw [h]

theorem wordAt_agree {data data' : List Nat} {n : Nat}
    (hagree : data.take n = data'.take n) {j : Nat} (hj : j + 1 < n) :
    wordAt data j = wordAt data' j := by
  unfold wordAt
  rw [getByte_agree hagree (by omega), getByte_agree hagree hj]

theorem take_agree_length {data data' : List Nat} {n : Nat}
    (hagree : data.take n = data'.take n) (hn : n ≤ data.length) : n ≤ data'.length := by
  have h := congrArg List.length hagree
  simp [List.length_take] at h
  omega

theorem srcFinal_agree {data data' : List Nat} (address : Int) (instruction ty : Nat)
    (hagree : data.take (instrLength instruction address ty) =
      data'.take (instrLength instruction address ty)) :
    srcFinal data address instruction ty = srcFinal data' address instruction ty := by
  unfold srcFinal
  dsimp only
  split
  · next hne =>
    rcases src_operandLength_cases ty instruction address with h0 | h2
    · exact absurd h0 hne
    · have hlt : 2 + 1 < instrLength instruction address ty := by
        unfold instrLength
        omega
      rw [wordAt_agree hagree hlt]
  · rfl

theorem dstFinal_agree {data data' : List Nat} (address : Int) (instruction ty : Nat)
    (hagree : data.take (instrLength instruction address ty) =
      data'.take (instrLength instruction address ty)) :
    dstFinal data address instruction ty = dstFinal data' address instruction ty := by
  unfold dstFinal
  dsimp only
  cases hd : DestOperand.decode ty instruction with
  | none => rfl
  | some d =>
    dsimp only
    split
    · next hne =>
      rcases dst_operandLength_cases ty instruction d hd with h0 | h2
      · exact absurd h0 hne
      · have hlt : 2 + (SourceOperand.decode ty instruction address).operandLength + 1 <
            instrLength instruction address ty := by
          unfold instrLength
          rw [hd]
          dsimp only
          omega
        rw [wordAt_agree hagree hlt]
    · rfl

/-- Core read-only-dependence lemma: a successful decode is determined
by the first `length` bytes of the buffer. -/
theorem decode_agree_of_take_eq {data data' : List Nat} {address : Int} {i : Instruction}
    (h : decode data address = .ok i)
    (hagree : data.take i.length = data'.take i.length) :
    decode data' address = .ok i := by
  obtain ⟨h2, hc⟩ := decode_ok_cases data address i h
  rcases hc with ⟨h41, rfl⟩ | ⟨h41, m, ty, hl, hty, hlen, rfl⟩
  · have hlen2 : (2 : Nat) ≤ data'.length := take_agree_length hagree h2
    have hw : wordAt data 0 = wordAt data' 0 := wordAt_agree hagree (by norm_num)
    unfold decode
    rw [if_neg (by omega), ← hw, if_pos h41]
  · have hL : (decodedInstruction data address (wordAt data 0) m ty).length =
        instrLength (wordAt data 0) address ty := rfl
    rw [hL] at hagree
    have hge : instrLength (wordAt data 0) address ty ≤ data.length := by omega
    have hge2 : instrLength (wordAt data 0) address ty ≤ data'.length :=
      take_agree_length hagree hge
    have hL2 : 2 ≤ instrLength (wordAt data 0) address ty := by
      unfold instrLength
      omega
    have hw : wordAt data 0 = wordAt data' 0 :=
      wordAt_agree hagree (by omega)
    unfold decode
    rw [if_neg (by omega), ← hw, if_neg h41, hl]
    dsimp only
    rw [hty]
    dsimp only
    unfold decodeOperands
    rw [if_neg (by omega)]
    rw [show decodedInstruction data' address (wordAt data 0) m ty =
        decodedInstruction data address (wordAt data 0) m ty from ?_]
    unfold decodedInstruction
    rw [srcFinal_agree address (wordAt data 0) ty hagree,
        dstFinal_agree address (wordAt data 0) ty hagree]

/-- Truncating a successfully decoded buffer by one byte always takes
one of the two insufficient-length exits. -/
theorem decode_take_pred_insufficient (data : List Nat) (address : Int) (i : Instruction)
    (h : decode data address = .ok i) :
    decode (data.take (i.length - 1)) address = .insufficientBytes := by
  obtain ⟨h2, hc⟩ := decode_ok_cases data address i h
  rcases hc with ⟨h41, rfl⟩ | ⟨h41, m, ty, hl, hty, hlen, rfl⟩
  · show decode (data.take 1) address = .insufficientBytes
    unfold decode
    rw [if_pos]
    simp [List.length_take]
  · have hL : (decodedInstruction data address (wordAt data 0) m ty).length =
        instrLength (wordAt data 0) address ty := rfl
    rw [hL]
    rcases instrLength_cases (wordAt data 0) address ty with hc | hc | hc
    · rw [hc]
      unfold decode
      rw [if_pos]
      simp [List.length_take]
    all_goals
      have hlen3 : (data.take (instrLength (wordAt data 0) address ty - 1)).length =
          instrLength (wordAt data 0) address ty - 1 := by
        simp [List.length_take]
        omega
      have htk : (data.take (instrLength (wordAt data 0) address ty - 1)).take
            (instrLength (wordAt data 0) address ty - 1) =
          data.take (instrLength (wordAt data 0) address ty - 1) := by
        simp [List.take_take]
      have hw : wordAt data 0 =
          wordAt (data.take (instrLength (wordAt data 0) address ty - 1)) 0 := by
        refine wordAt_agree (n := instrLength (wordAt data 0) address ty - 1) ?_ (by omega)
        rw [htk]
      unfold decode
      rw [if_neg (by omega), ← hw, if_neg h41, hl]
      dsimp only
      rw [hty]
      dsimp only
      unfold decodeOperands
      rw [if_pos (by omega)]

/-- C6: every successfully decoded instruction has an even encoded
length between 2 and 6 equal to 2 plus the operands' extra-word
contributions; a buffer truncated to exactly that length still decodes
to the same instruction, and truncating one byte further always yields
the insufficient-bytes failure. -/
theorem C6_length_law (data : List Nat) (address : Int) (i : Instruction)
    (h : decode data address = .ok i) :
    i.length % 2 = 0 ∧ 2 ≤ i.length ∧ i.length ≤ 6 ∧
    i.length = 2 + (match i.src with | some s => s.operandLength | none => 0) +
      (match i.dst with | some d => d.operandLength | none => 0) ∧
    decode (data.take i.length) address = .ok i ∧
    decode (data.take (i.length - 1)) address = .insufficientBytes := by
  have htake : decode (data.take i.length) address = .ok i := by
    refine decode_agree_of_take_eq h ?_
    simp [List.take_take]
  have hshort := decode_take_pred_insufficient data address i h
  obtain ⟨h2, hc⟩ := decode_ok_cases data address i h
  rcases hc with ⟨h41, rfl⟩ | ⟨h41, m, ty, hl, hty, hlen, rfl⟩
  · exact ⟨rfl, by norm_num, by norm_num, rfl, htake, hshort⟩
  · have hL : (decodedInstruction data address (wordAt data 0) m ty).length =
        instrLength (wordAt data 0) address ty := rfl
    have hsrc : (decodedInstruction data address (wordAt data 0) m ty).src =
        some (srcFinal data address (wordAt data 0) ty) := rfl
    have hdst : (decodedInstruction data address (wordAt data 0) m ty).dst =
        dstFinal data address (wordAt data 0) ty := rfl
    refine ⟨?_, ?_, ?_, ?_, htake, hshort⟩
    · rw [hL]
      rcases instrLength_cases (wordAt data 0) address ty with hc | hc | hc <;> omega
    · rw [hL]
      rcases instrLength_cases (wordAt data 0) address ty with hc | hc | hc <;> omega
    · rw [hL]
      rcases instrLength_cases (wordAt data 0) address ty with hc | hc | hc <;> omega
    · rw [hL, hsrc, hdst]
      dsimp only
      rw [srcFinal_operandLength, dstFinal_operandLength]
      rfl

/-- Sample buffer for the length-law and prefix witnesses:
`mov #0x1234, sp`. -/
def sampleMovData : List Nat := [0x31, 0x40, 0x34, 0x12]

/-- The instruction `sampleMovData` decodes to. -/
def sampleMovInstr : Instruction :=
  { mnemonic := .mov, type := some 1,
    src := some { mode := IMMEDIATE_MODE, target := some pcReg, width := some 2,
                  value := some 4660, operandLength := 2 },
    dst := some { mode := REGISTER_MODE, target := some spReg, width := some 2,
                  value := none, operandLength := 0 },
    length := 4, emulated := false }

/-- C6 witness: the length law instantiated at `mov #0x1234, sp`
(bytes `[0x31, 0x40, 0x34, 0x12]`, length 4). -/
theorem C6_length_law_witness :
    sampleMovInstr.length % 2 = 0 ∧ 2 ≤ sampleMovInstr.length ∧ sampleMovInstr.length ≤ 6 ∧
    sampleMovInstr.length =
      2 + (match sampleMovInstr.src with | some s => s.operandLength | none => 0) +
        (match sampleMovInstr.dst with | some d => d.operandLength | none => 0) ∧
    decode (sampleMovData.take sampleMovInstr.length) 0 = .ok sampleMovInstr ∧
    decode (sampleMovData.take (sampleMovInstr.length - 1)) 0 = .insufficientBytes :=
  C6_length_law sampleMovData 0 sampleMovInstr (by decide)

/-- C10: decode is insensitive to bytes beyond the consumed prefix — if
a buffer decodes successfully and a second buffer agrees with it on the
first `length` bytes, the second buffer decodes to the same
instruction. -/
theorem C10_prefix_insensitive (data data' : List Nat) (address : Int) (i : Instruction)
    (h : decode data address = .ok i)
    (hagree : data.take i.length = data'.take i.length) :
    decode data' address = .ok i :=
  decode_agree_of_take_eq h hagree

/-- C10 witness: `mov #0x1234, sp` decoded from its four bytes and from
the same four bytes with a junk byte appended. -/
theorem C10_prefix_insensitive_witness :
    decode [0x31, 0x40, 0x34, 0x12, 0xFF] 0 = .ok sampleMovInstr :=
  C10_prefix_insensitive sampleMovData [0x31, 0x40, 0x34, 0x12, 0xFF] 0 sampleMovInstr
    (by decide) (by decide)

/-- C8: register-aliasing law for the constant generator — a type-1 or
type-2 word whose source register field is `cg` (3) resolves raw modes
register/indexed/indirect-register/indirect-autoincrement to
constant-0/1/2/(−1), always with zero extra operand bytes. -/
theorem C8_cg_aliasing (ty instruction : Nat) (address : Int)
    (hty : ty = 1 ∨ ty = 2)
    (hreg : (if ty = 2 then instruction % 16 else instruction / 256 % 16) = 3) :
    (SourceOperand.decode ty instruction address).mode =
      (if instruction / 16 % 4 = REGISTER_MODE then CONSTANT_MODE0
       else if instruction / 16 % 4 = INDEXED_MODE then CONSTANT_MODE1
       else if instruction / 16 % 4 = INDIRECT_REGISTER_MODE then CONSTANT_MODE2
       else CONSTANT_MODE_NEG1) ∧
    (SourceOperand.decode ty instruction address).operandLength = 0 := by
  have hm : instruction / 16 % 4 = 0 ∨ instruction / 16 % 4 = 1 ∨
      instruction / 16 % 4 = 2 ∨ instruction / 16 % 4 = 3 := by omega
  rcases hty with rfl | rfl <;> norm_num at hreg <;>
    unfold SourceOperand.decode <;>
    rcases hm with hm | hm | hm | hm <;>
      simp [hreg, hm, pcReg, cgReg, srReg, Fin.ext_iff, OperandLengths] <;> decide

/-- C8 witness: word `0x4321` is `mov #2, sp` — type 1, source register
field `cg`, raw mode 2, resolved to constant-2 with no extra bytes. -/
theorem C8_cg_aliasing_witness :
    (SourceOperand.decode 1 0x4321 0).mode =
      (if 0x4321 / 16 % 4 = REGISTER_MODE then CONSTANT_MODE0
       else if 0x4321 / 16 % 4 = INDEXED_MODE then CONSTANT_MODE1
       else if 0x4321 / 16 % 4 = INDIRECT_REGISTER_MODE then CONSTANT_MODE2
       else CONSTANT_MODE_NEG1) ∧
    (SourceOperand.decode 1 0x4321 0).operandLength = 0 :=
  C8_cg_aliasing 1 0x4321 0 (Or.inl rfl) (by decide)

/-- C9: lifting a decoded `mov` whose source is an immediate and whose
destination is `sp` in register mode emits no IL operations at all. -/
theorem C9_mov_imm_to_sp_noop (labelFor : Int → Bool) (data : List Nat)
    (address liftAddr : Int) (i : Instruction) (s d : Operand)
    (_h : decode data address = .ok i)
    (hm : i.mnemonic = .mov)
    (hs : i.src = some s) (hsm : s.mode = IMMEDIATE_MODE)
    (hd : i.dst = some d) (hdt : d.target = some spReg) (hdm : d.mode = REGISTER_MODE) :
    Lifter.lift labelFor liftAddr i = [] := by
  unfold Lifter.lift
  rw [hm]
  unfold Lifter.lift_mov
  simp only [Lifter.srcOp, Lifter.dstOp, hs, hd, Option.getD_some]
  rw [if_pos ⟨hsm, hdt, hdm⟩]

/-- C9 witness: `mov #0x4400, sp` (bytes `[0x31, 0x40, 0x00, 0x44]`)
lifts to the empty IL sequence. -/
theorem C9_mov_imm_to_sp_noop_witness :
    Lifter.lift (fun _ => false) 0
      { mnemonic := .mov, type := some 1,
        src := some { mode := IMMEDIATE_MODE, target := some pcReg, width := some 2,
                      value := some 0x4400, operandLength := 2 },
        dst := some { mode := REGISTER_MODE, target := some spReg, width := some 2,
                      value := none, operandLength := 0 },
        length := 4, emulated := false } = [] :=
  C9_mov_imm_to_sp_noop (fun _ => false) [0x31, 0x40, 0x00, 0x44] 0 0 _ _ _
    (by decide) rfl rfl rfl rfl rfl rfl

/-!
Autoincrement side-effect analysis. The helper lemmas below compute
the lifted IL for every mnemonic a decoded instruction with an
indirect-autoincrement source can carry, showing the single appended
increment (or its absence, for the exceptional mnemonics).
-/

theorem src_mode_ty3 (w : Nat) (a : Int) : (SourceOperand.decode 3 w a).mode = OFFSET := by
  unfold SourceOperand.decode
  simp

theorem dstFinal_ty2 (data : List Nat) (address : Int) (w : Nat) :
    dstFinal data address w 2 = none := by
  unfold dstFinal DestOperand.decode
  norm_num

theorem dstFinal_ty1 (data : List Nat) (address : Int) (w : Nat) :
    ∃ d, dstFinal data address w 1 = some d ∧ (d.mode = 0 ∨ d.mode = 1 ∨ d.mode = 5) := by
  unfold dstFinal DestOperand.decode
  rw [if_neg (by simp : ¬ (1 : Nat) ≠ 1)]
  dsimp only
  split_ifs <;> refine ⟨_, rfl, ?_⟩ <;> dsimp only <;> first
  | decide
  | omega

theorem lift_autoinc_type1 (labelFor : Int → Bool) (liftAddr : Int) (i : Instruction)
    (s d : Operand) (hs : i.src = some s) (hsm : s.mode = INDIRECT_AUTOINCREMENT_MODE)
    (hd : i.dst = some d) (hdm : d.mode = 0 ∨ d.mode = 1 ∨ d.mode = 5)
    (hm : i.mnemonic ∈ ([.mov, .add, .addc, .subc, .sub, .cmp, .bit, .bic, .bis, .xor,
      .and, .br] : List Mnemonic)) :
    ∃ body, Lifter.lift labelFor liftAddr i = body ++ [Lifter.autoincOp s] ∧
      Lifter.autoincOp s ∉ body := by
  have hso : Lifter.srcOp i = s := by unfold Lifter.srcOp; rw [hs]; rfl
  have hdo : Lifter.dstOp i = d := by unfold Lifter.dstOp; rw [hd]; rfl
  have hauto : Lifter.autoincrement s = [Lifter.autoincOp s] := by
    unfold Lifter.autoincrement
    rw [if_pos hsm]
  simp only [List.mem_cons, List.not_mem_nil, or_false] at hm
  rcases hm with hm|hm|hm|hm|hm|hm|hm|hm|hm|hm|hm|hm <;>
    rcases hdm with hdm|hdm|hdm <;>
      simp only [Lifter.lift, hm, Lifter.lift_mov, Lifter.lift_add, Lifter.lift_addc,
        Lifter.lift_subc, Lifter.lift_sub, Lifter.lift_cmp, Lifter.lift_bit,
        Lifter.lift_bic, Lifter.lift_bis, Lifter.lift_xor, Lifter.lift_and,
        Lifter.lift_br, Lifter.lift_type1, hso, hdo, hauto, hsm, hdm] <;>
      simp only [DestOperandsIL, SourceOperandsIL, show (3 : Nat) ≠ 6 by decide,
        false_and, if_false] <;>
      refine ⟨[_], rfl, ?_⟩ <;>
      simp [Lifter.autoincOp, jumpIL, destConstant]

theorem lift_autoinc_type2 (labelFor : Int → Bool) (liftAddr : Int) (i : Instruction)
    (s : Operand) (hs : i.src = some s) (hsm : s.mode = INDIRECT_AUTOINCREMENT_MODE)
    (hm : i.mnemonic ∈ ([.rrc, .swpb, .rra, .sxt, .push, .br] : List Mnemonic)) :
    ∃ body, Lifter.lift labelFor liftAddr i = body ++ [Lifter.autoincOp s] ∧
      Lifter.autoincOp s ∉ body := by
  have hso : Lifter.srcOp i = s := by unfold Lifter.srcOp; rw [hs]; rfl
  have hauto : Lifter.autoincrement s = [Lifter.autoincOp s] := by
    unfold Lifter.autoincrement
    rw [if_pos hsm]
  simp only [List.mem_cons, List.not_mem_nil, or_false] at hm
  rcases hm with hm|hm|hm|hm|hm|hm <;>
    simp only [Lifter.lift, hm, Lifter.lift_rrc, Lifter.lift_swpb, Lifter.lift_rra,
      Lifter.lift_sxt, Lifter.lift_push, Lifter.lift_br, hso, hauto, hsm] <;>
    simp only [DestOperandsIL, SourceOperandsIL] <;>
    first
      | (refine ⟨[_], rfl, ?_⟩; simp [Lifter.autoincOp, jumpIL, destConstant])
      | (refine ⟨[_, _], rfl, ?_⟩; simp [Lifter.autoincOp, jumpIL, destConstant])

/-- C7 counterexample: `dadd @r4+, r5` (word `0xA435`) decodes with an
indirect-autoincrement source, yet its lifting is the single
`unimplemented` marker with no register increment at all. -/
theorem C7_counterexample :
    decode [0x35, 0xA4] 0 =
      .ok { mnemonic := .dadd, type := some 1,
            src := some { mode := INDIRECT_AUTOINCREMENT_MODE, target := some 4,
                          width := some 2, value := none, operandLength := 0 },
            dst := some { mode := REGISTER_MODE, target := some 5, width := some 2,
                          value := none, operandLength := 0 },
            length := 2, emulated := false } ∧
    Lifter.lift (fun _ => false) 0
      { mnemonic := .dadd, type := some 1,
        src := some { mode := INDIRECT_AUTOINCREMENT_MODE, target := some 4,
                      width := some 2, value := none, operandLength := 0 },
        dst := some { mode := REGISTER_MODE, target := some 5, width := some 2,
                      value := none, operandLength := 0 },
        length := 2, emulated := false } = [ILOp.unimplemented] ∧
    Lifter.autoincOp { mode := INDIRECT_AUTOINCREMENT_MODE, target := some 4,
                       width := some 2, value := none, operandLength := 0 } ∉
      ([ILOp.unimplemented] : List ILOp) := by decide

/-- C7 amended: for every decoded instruction whose source operand mode
is indirect-autoincrement and whose mnemonic is not `call`, `dadd` or
`reti`, the lifted IL is the primary operations followed by exactly one
increment of the source register by the operand's width
(`Lifter.autoincOp`), and that increment occurs nowhere else. `call`
increments by the constant 2 (through a temporary, before the call
expression), `dadd` lifts to a bare unimplemented marker without any
increment, and `reti` ignores its decoded source operand entirely. -/
theorem C7_amended_autoincrement (labelFor : Int → Bool) (data : List Nat)
    (address liftAddr : Int) (i : Instruction) (s : Operand)
    (h : decode data address = .ok i)
    (hs : i.src = some s) (hsm : s.mode = INDIRECT_AUTOINCREMENT_MODE)
    (hcall : i.mnemonic ≠ .call) (hdadd : i.mnemonic ≠ .dadd) (hreti : i.mnemonic ≠ .reti) :
    ∃ body, Lifter.lift labelFor liftAddr i = body ++ [Lifter.autoincOp s] ∧
      Lifter.autoincOp s ∉ body := by
  obtain ⟨h2, hc⟩ := decode_ok_cases data address i h
  rcases hc with ⟨h41, rfl⟩ | ⟨h41, m, ty, hl, hty, hlen, rfl⟩
  · exact absurd hs (by simp)
  · have hs' : srcFinal data address (wordAt data 0) ty = s := by
      have hsrc : (decodedInstruction data address (wordAt data 0) m ty).src =
          some (srcFinal data address (wordAt data 0) ty) := rfl
      rw [hsrc] at hs
      injection hs
    have hmode : (SourceOperand.decode ty (wordAt data 0) address).mode =
        INDIRECT_AUTOINCREMENT_MODE := by
      rw [← srcFinal_mode data address (wordAt data 0) ty, hs']
      exact hsm
    have hty' := hty
    have hty123 : ty = 1 ∨ ty = 2 ∨ ty = 3 := by
      cases m <;>
        simp [typeOf, TYPE1_INSTRUCTIONS, TYPE2_INSTRUCTIONS, TYPE3_INSTRUCTIONS] at hty' <;>
        omega
    rcases hty123 with rfl | rfl | rfl
    · -- type 1
      obtain ⟨d, hdf, hdm⟩ := dstFinal_ty1 data address (wordAt data 0)
      have hdst : (decodedInstruction data address (wordAt data 0) m 1).dst = some d := hdf
      have hmn : (decodedInstruction data address (wordAt data 0) m 1).mnemonic = .br ∨
          (decodedInstruction data address (wordAt data 0) m 1).mnemonic = m := by
        unfold decodedInstruction
        dsimp only
        split
        · exact Or.inl rfl
        · exact Or.inr rfl
      have hm1 : m ∈ TYPE1_INSTRUCTIONS := by
        have t1 : ∀ m', typeOf m' = some 1 → m' ∈ TYPE1_INSTRUCTIONS := by decide
        exact t1 m hty
      rcases hmn with hmn | hmn
      · refine lift_autoinc_type1 labelFor liftAddr _ s d hs hsm hdst hdm ?_
        rw [hmn]
        decide
      · refine lift_autoinc_type1 labelFor liftAddr _ s d hs hsm hdst hdm ?_
        rw [hmn]
        rw [hmn] at hdadd
        have t1d : ∀ m', m' ∈ TYPE1_INSTRUCTIONS → m' ≠ .dadd →
            m' ∈ ([.mov, .add, .addc, .subc, .sub, .cmp, .bit, .bic, .bis, .xor,
              .and, .br] : List Mnemonic) := by decide
        exact t1d m hm1 hdadd
    · -- type 2
      have hdf := dstFinal_ty2 data address (wordAt data 0)
      have hmn : (decodedInstruction data address (wordAt data 0) m 2).mnemonic = m := by
        simp [decodedInstruction, hdf]
      have hm2 : m ∈ TYPE2_INSTRUCTIONS := by
        have t2 : ∀ m', typeOf m' = some 2 → m' ∈ TYPE2_INSTRUCTIONS := by decide
        exact t2 m hty
      refine lift_autoinc_type2 labelFor liftAddr _ s hs hsm ?_
      rw [hmn]
      rw [hmn] at hcall hreti
      have t2l : ∀ m', m' ∈ TYPE2_INSTRUCTIONS → m' ≠ .call → m' ≠ .reti →
          m' ∈ ([.rrc, .swpb, .rra, .sxt, .push, .br] : List Mnemonic) := by decide
      exact t2l m hm2 hcall hreti
    · -- type 3: the source mode is OFFSET, contradiction
      rw [src_mode_ty3] at hmode
      exact absurd hmode (by decide)

/-- C7 amended witness: `add @r4+, r5` (bytes `[0x35, 0x54]`) lifts to
its destination write followed by exactly the one increment of `r4` by
the word width. -/
theorem C7_amended_autoincrement_witness :
    ∃ body, Lifter.lift (fun _ => false) 0
      { mnemonic := .add, type := some 1,
        src := some { mode := INDIRECT_AUTOINCREMENT_MODE, target := some 4,
                      width := some 2, value := none, operandLength := 0 },
        dst := some { mode := REGISTER_MODE, target := some 5, width := some 2,
                      value := none, operandLength := 0 },
        length := 2, emulated := false } =
      body ++ [Lifter.autoincOp { mode := INDIRECT_AUTOINCREMENT_MODE, target := some 4,
                                  width := some 2, value := none, operandLength := 0 }] ∧
    Lifter.autoincOp { mode := INDIRECT_AUTOINCREMENT_MODE, target := some 4,
                       width := some 2, value := none, operandLength := 0 } ∉ body :=
  C7_amended_autoincrement (fun _ => false) [0x35, 0x54] 0 0 _ _ (by decide) rfl rfl
    (by decide) (by decide) (by decide)
